import Mathlib

/-!
# Toshokan builder front end: session and view-state engine

A shallow embedding of the state handling of the React front end
(`frontend/src/App.jsx`, `components/ChatPanel.jsx`, `components/CodeViewer.jsx`).

Every React state cell becomes a field of a state record and every event handler a
function on that record.  An `await` on the backend gateway is an input of the handler:
the outcome of the call (a value or a thrown error) is passed in as an argument.  The
gateway calls issued so far are kept in a ghost field of the state, so that "no request is
issued" is a statement about that field.
-/

namespace Toshokan

/-! ## JavaScript helpers -/

/-- The method `Array.prototype.join` on an array of strings. -/
def join (sep : String) : List String → String
  | [] => ""
  | [a] => a
  | a :: b :: rest => a ++ sep ++ join sep (b :: rest)

/-- JavaScript truthiness of a value that is a string, `null` or `undefined`:
only a non-empty string is truthy. -/
def truthy : Option String → Bool
  | some s => s != ""
  | none => false

/-- The `WhiteSpace` and `LineTerminator` code points of ECMAScript, the ones that
`String.prototype.trim` strips. -/
def isJsWhiteSpace (c : Char) : Bool :=
  let n := c.toNat
  n == 0x09 || n == 0x0A || n == 0x0B || n == 0x0C || n == 0x0D ||
  n == 0x20 || n == 0xA0 || n == 0x1680 ||
  (0x2000 ≤ n && n ≤ 0x200A) ||
  n == 0x2028 || n == 0x2029 || n == 0x202F || n == 0x205F ||
  n == 0x3000 || n == 0xFEFF

/-- The method `String.prototype.trim`: white space removed from both ends. -/
def trim (s : String) : String :=
  String.mk ((s.data.dropWhile isJsWhiteSpace).reverse.dropWhile isJsWhiteSpace).reverse

/-! ## Data model of `CodeViewer.jsx` -/

/-- A file entry of a build response: its `path` and whatever other fields the backend
sent along (key and value, keys other than `path` and `content`). -/
structure FileRef where
  path : String
  fields : List (String × String)
deriving DecidableEq, Repr

/-- An open tab: the object `{ ...file, content }`. -/
structure Tab where
  path : String
  fields : List (String × String)
  content : String
deriving DecidableEq, Repr

/-- The object spread `{ ...file, content }`. -/
def Tab.ofFile (file : FileRef) (content : String) : Tab :=
  { path := file.path, fields := file.fields, content := content }

/-- The value held by `selectedFile`: `handleFileSelect` stores the file object,
`handleTabClose` and `handleTabSwitch` store a tab object. -/
inductive Selected where
  | file (f : FileRef)
  | tab (t : Tab)
deriving DecidableEq, Repr

/-- The five `useState` cells of `CodeViewer`, and the ghost list `fetches` of the
`getFileContent(sessionId, path)` calls issued so far, oldest first. -/
structure ViewerState where
  selectedFile : Option Selected
  fileContent : String
  openTabs : List Tab
  activeTab : Option String
  loading : Bool
  fetches : List (String × String)
deriving DecidableEq, Repr

/-- The state of a freshly mounted `CodeViewer`. -/
def ViewerState.initial : ViewerState :=
  { selectedFile := none, fileContent := "", openTabs := [], activeTab := none,
    loading := false, fetches := [] }

/-- Outcome of `await getFileContent(sessionId, file.path)`: the content, or a throw. -/
inductive FetchResult where
  | content (c : String)
  | failure
deriving DecidableEq, Repr

/-- The part of `handleFileSelect` before the `await`: `setLoading(true)` and the call
of the gateway.  Only reached with a truthy `sessionId`. -/
def handleFileSelectStart (sessionId : String) (file : FileRef) (st : ViewerState) :
    ViewerState :=
  { st with loading := true, fetches := st.fetches ++ [(sessionId, file.path)] }

/-- The part of `handleFileSelect` after the `await`.  `captured` is the `openTabs` of
the render whose handler is running (read by `openTabs.find`), `st` the state the
updaters `prev => ...` are applied to. -/
def handleFileSelectSettle (captured : List Tab) (file : FileRef) (result : FetchResult)
    (st : ViewerState) : ViewerState :=
  match result with
  | .content content =>
    let tabs :=
      if (captured.find? (fun tab => tab.path == file.path)).isNone then
        st.openTabs ++ [Tab.ofFile file content]
      else
        st.openTabs.map (fun tab =>
          if tab.path == file.path then { tab with content := content } else tab)
    { st with
      openTabs := tabs
      selectedFile := some (.file file)
      fileContent := content
      activeTab := some file.path
      loading := false }
  | .failure =>
    { st with fileContent := "// Error loading file content", loading := false }

/-- The handler `handleFileSelect`, run from the click to the settling of the fetch with
no other event in between. -/
def handleFileSelect (sessionId : Option String) (file : FileRef) (result : FetchResult)
    (st : ViewerState) : ViewerState :=
  match sessionId with
  | none => st
  | some sid =>
    if truthy (some sid) then
      handleFileSelectSettle st.openTabs file result (handleFileSelectStart sid file st)
    else st

/-- The handler `handleTabClose(path, e)`.  The event `e` is only used for
`e.stopPropagation()`, which keeps the click from reaching `handleTabSwitch`. -/
def handleTabClose (path : String) (st : ViewerState) : ViewerState :=
  let newTabs := st.openTabs.filter (fun tab => tab.path != path)
  let st1 := { st with openTabs := newTabs }
  if st.activeTab = some path then
    let newActiveTab := if newTabs.length > 0 then newTabs[newTabs.length - 1]? else none
    match newActiveTab with
    | some tab =>
      { st1 with activeTab := some tab.path, fileContent := tab.content,
                 selectedFile := some (.tab tab) }
    | none =>
      { st1 with activeTab := none, fileContent := "", selectedFile := none }
  else st1

/-- The handler `handleTabSwitch(tab)`. -/
def handleTabSwitch (tab : Tab) (st : ViewerState) : ViewerState :=
  { st with activeTab := some tab.path, fileContent := tab.content,
            selectedFile := some (.tab tab) }

/-- A call of `handleFileSelect` suspended at its `await`: the `openTabs` of the render
the handler was created in, which `openTabs.find` will read when the call resumes, and
the file that was clicked. -/
structure PendingFetch where
  captured : List Tab
  file : FileRef
deriving DecidableEq, Repr

/-- The component between two events: its state cells and the fetches in flight,
oldest first. -/
structure Workspace where
  view : ViewerState
  pending : List PendingFetch
deriving DecidableEq, Repr

/-- The workspace of a freshly mounted `CodeViewer`. -/
def Workspace.initial : Workspace :=
  { view := ViewerState.initial, pending := [] }

/-- The events of the mounted `CodeViewer`: a click on a file of the explorer (with the
`sessionId` prop of that moment), the settling of the `index`-th fetch in flight with
its outcome, a click on the close button of a tab, and a click on the `index`-th tab of
the tab bar.  Nothing in the component disables the explorer or the tab bar while a
fetch is in flight, so clicks and settlings come in any order. -/
inductive ViewerEvent where
  | clickFile (sessionId : Option String) (file : FileRef)
  | fetchSettled (index : Nat) (result : FetchResult)
  | closeTab (path : String)
  | switchTab (index : Nat)
deriving DecidableEq, Repr

/-- One event applied to the workspace.  A click on a file runs `handleFileSelect` up to
the `await`; the settling of a fetch runs the rest of that call, which still sees the
`openTabs` of the click.  The tab bar is `openTabs.map(tab => ...)` with
`onClick={() => handleTabSwitch(tab)}`: a click reaches `handleTabSwitch` with a
tab of `openTabs`; an index past the end is no tab, or no fetch, and nothing happens. -/
def ViewerEvent.apply (w : Workspace) : ViewerEvent → Workspace
  | .clickFile sessionId file =>
    match sessionId with
    | none => w
    | some sid =>
      if truthy (some sid) then
        { view := handleFileSelectStart sid file w.view,
          pending := w.pending ++ [{ captured := w.view.openTabs, file := file }] }
      else w
  | .fetchSettled index result =>
    match w.pending[index]? with
    | some fetch =>
      { view := handleFileSelectSettle fetch.captured fetch.file result w.view,
        pending := w.pending.eraseIdx index }
    | none => w
  | .closeTab path => { w with view := handleTabClose path w.view }
  | .switchTab index =>
    match w.view.openTabs[index]? with
    | some tab => { w with view := handleTabSwitch tab w.view }
    | none => w

/-- A sequence of events, applied from left to right. -/
def runViewer (events : List ViewerEvent) (w : Workspace) : Workspace :=
  events.foldl ViewerEvent.apply w

/-- An operation of the tab workspace carried out from start to end with no other event
in between: a selection together with the outcome of its fetch, the closing of a tab,
a switch to the `index`-th tab. -/
inductive Operation where
  | selectFile (sessionId : Option String) (file : FileRef) (result : FetchResult)
  | closeTab (path : String)
  | switchTab (index : Nat)
deriving DecidableEq, Repr

/-- One operation applied to the state. -/
def Operation.apply (st : ViewerState) : Operation → ViewerState
  | .selectFile sessionId file result => handleFileSelect sessionId file result st
  | .closeTab path => handleTabClose path st
  | .switchTab index =>
    match st.openTabs[index]? with
    | some tab => handleTabSwitch tab st
    | none => st

/-- A sequence of operations, applied from left to right. -/
def runOperations (operations : List Operation) (st : ViewerState) : ViewerState :=
  operations.foldl Operation.apply st

/-- The events of an operation: a selection is the click followed at once by the
settling of its fetch. -/
def Operation.events : Operation → List ViewerEvent
  | .selectFile sessionId file result =>
    [.clickFile sessionId file, .fetchSettled 0 result]
  | .closeTab path => [.closeTab path]
  | .switchTab index => [.switchTab index]

/-- The paths of the open tabs, in tab order. -/
def ViewerState.paths (st : ViewerState) : List String :=
  st.openTabs.map Tab.path

/-! ## Data model of `App.jsx` -/

/-- The `role` of a chat turn. -/
inductive Role where
  | user
  | assistant
  | system
deriving DecidableEq, Repr

/-- An entry of `messages`: the object `{ role, content }`. -/
structure ChatTurn where
  role : Role
  content : String
deriving DecidableEq, Repr

/-- An entry of the module list returned by `/api/modules`. -/
structure ModuleInfo where
  module_id : String
deriving DecidableEq, Repr

/-- The body of a `/api/build` response.  Every field may be missing (`undefined`). -/
structure BuildResponse where
  session_id : Option String
  files : Option (List FileRef)
  message : Option String
  setup_warnings : Option (List String)
deriving DecidableEq, Repr

/-- A thrown error, of which the handlers read `error.message`. -/
structure JsError where
  message : Option String
deriving DecidableEq, Repr

/-- Outcome of an awaited gateway call: the resolved value, or the thrown error. -/
inductive Outcome (α : Type) where
  | resolved (value : α)
  | thrown (error : JsError)
deriving DecidableEq, Repr

/-- The `TypeError` raised by reading `.length` of `undefined` (wording of V8). -/
def lengthOfUndefined : JsError :=
  { message := some "Cannot read properties of undefined (reading 'length')" }

/-- The five `useState` cells of `App`, and the ghost list `builds` of the prompts
passed to `buildApp` so far, oldest first.  `modules` and `files` hold what the
response carried, which is `undefined` (`none`) when the field was missing. -/
structure AppState where
  modules : Option (List ModuleInfo)
  messages : List ChatTurn
  currentSession : Option String
  files : Option (List FileRef)
  isBuilding : Bool
  builds : List String
deriving DecidableEq, Repr

/-- The state of a freshly mounted `App`. -/
def AppState.initial : AppState :=
  { modules := some [], messages := [], currentSession := none, files := some [],
    isBuilding := false, builds := [] }

/-- The template literal of the welcome turn of `loadModules`. -/
def welcomeContent (data : List ModuleInfo) : String :=
  "Welcome! I have " ++ toString data.length ++ " modules available: " ++
    join ", " (data.map ModuleInfo.module_id) ++ ". What would you like to build?"

/-- The turn of the `catch` branch of `loadModules`. -/
def connectErrorTurn : ChatTurn :=
  { role := .system,
    content := "Error connecting to backend. Please ensure the server is running on port 8000." }

/-- The part of `loadModules` after `await getModules()`.  `getModules` resolves to
`response.data.modules`, which is `undefined` when the body has no such field; then
`data.length` throws inside the `try` and the `catch` branch runs. -/
def loadModules (result : Outcome (Option (List ModuleInfo))) (st : AppState) : AppState :=
  match result with
  | .resolved (some data) =>
    { st with modules := some data,
              messages := [{ role := .system, content := welcomeContent data }] }
  | .resolved none =>
    { st with modules := none, messages := [connectErrorTurn] }
  | .thrown _ =>
    { st with messages := [connectErrorTurn] }

/-- The part of `handleSendMessage` before the `await`: the user turn is appended,
`isBuilding` is set and `buildApp(userMessage)` is called. -/
def handleSendMessageStart (userMessage : String) (st : AppState) : AppState :=
  { st with messages := st.messages ++ [{ role := .user, content := userMessage }],
            isBuilding := true,
            builds := st.builds ++ [userMessage] }

/-- The expression `error.message || 'Failed to build app'`. -/
def errorText (error : JsError) : String :=
  match error.message with
  | some m => if truthy (some m) then m else "Failed to build app"
  | none => "Failed to build app"

/-- The `catch` and `finally` blocks of `handleSendMessage`, entered when
`await buildApp(userMessage)` throws. -/
def buildFailed (error : JsError) (st : AppState) : AppState :=
  { st with messages := st.messages ++ [{ role := .system, content := "Error: " ++ errorText error }],
            isBuilding := false }

/-- The template literal `Successfully generated ${response.files.length} files!`,
whose evaluation throws when `response.files` is `undefined`. -/
def defaultContent (response : BuildResponse) : Except JsError String :=
  match response.files with
  | some files => .ok ("Successfully generated " ++ toString files.length ++ " files!")
  | none => .error lengthOfUndefined

/-- The expression `response.message || (the default text)`: the message when it is
truthy, else the default text. -/
def assistantContent (response : BuildResponse) : Except JsError String :=
  if truthy response.message then .ok (response.message.getD "")
  else defaultContent response

/-- The turn appended when `response.setup_warnings && response.setup_warnings.length > 0`. -/
def warningTurns (response : BuildResponse) : List ChatTurn :=
  match response.setup_warnings with
  | some warnings =>
    if warnings.length > 0 then
      [{ role := .system, content := "⚠️ Setup Required:\n" ++ join "\n" warnings }]
    else []
  | none => []

/-- The render of `App` that follows an update of its state, as far as it can throw:
`CodeViewer` evaluates `files.length` (line 71, and `FileExplorer` line 29), which
throws when `files` is `undefined`.  No error boundary is mounted: when the render
throws, React unmounts the tree and no state is left. -/
def render (st : AppState) : Except JsError AppState :=
  match st.files with
  | some _ => .ok st
  | none => .error lengthOfUndefined

/-- The part of `handleSendMessage` after `await buildApp(userMessage)`, with the
render that follows; the result is the rendered state, or the error thrown by the render.
When the call throws, the `catch` and `finally` blocks run; they assign no cell but
`messages` and `isBuilding`.  When the call resolves, the `try` body assigns the session
and the files and queues the updaters of `messages`.  The template of the assistant turn
stands inside the updater `prev => ...` (lines 45-48): React evaluates it when it
renders, outside the `try`, so a throw there is not caught by the handler. -/
def handleSendMessageSettle (result : Outcome BuildResponse) (st : AppState) :
    Except JsError AppState :=
  match result with
  | .thrown error => .ok (buildFailed error st)
  | .resolved response =>
    let st1 := { st with currentSession := response.session_id, files := response.files,
                         isBuilding := false }
    match assistantContent response with
    | .error error => .error error
    | .ok content =>
      render { st1 with
        messages := st1.messages ++ [{ role := .assistant, content := content }] ++
          warningTurns response }

/-- The handler `handleSendMessage`, run from the call to the settling of the build and
the render that follows. -/
def handleSendMessage (userMessage : String) (result : Outcome BuildResponse)
    (st : AppState) : Except JsError AppState :=
  handleSendMessageSettle result (handleSendMessageStart userMessage st)

/-! ## `ChatPanel.jsx` -/

/-- The handler `handleSubmit` of `ChatPanel`, as a function of the `input` cell and
the `isBuilding` prop: the argument of the call of `onSendMessage`, if the call is made,
and the new value of `input`. -/
def handleSubmit (input : String) (isBuilding : Bool) : Option String × String :=
  if truthy (some (trim input)) && !isBuilding then (some (trim input), "")
  else (none, input)

/-- A submission of the form as wired in `App`: `ChatPanel` gets
`onSendMessage={handleSendMessage}` and `isBuilding={isBuilding}`.  The result is the
state of `App` when `handleSubmit` returns (the build, if any, is then in flight) and
the new value of `input`. -/
def submit (input : String) (st : AppState) : AppState × String :=
  match handleSubmit input st.isBuilding with
  | (some userMessage, input1) => (handleSendMessageStart userMessage st, input1)
  | (none, input1) => (st, input1)

/-! ## Example values -/

/-- Tab `A` of the scenarios. -/
def tabA : Tab := { path := "A", fields := [], content := "a" }

/-- Tab `B` of the scenarios. -/
def tabB : Tab := { path := "B", fields := [], content := "b" }

/-- Tab `C` of the scenarios. -/
def tabC : Tab := { path := "C", fields := [], content := "c" }

/-- The scenario state: open tabs `[A, B, C]`, active `B`. -/
def stateABC : ViewerState :=
  { selectedFile := some (.tab tabB), fileContent := "b", openTabs := [tabA, tabB, tabC],
    activeTab := some "B", loading := false, fetches := [] }

/-- The explorer entry of path `B`. -/
def fileB : FileRef := { path := "B", fields := [] }

/-- The explorer entry of path `D`, which is not open in `stateABC`. -/
def fileD : FileRef := { path := "D", fields := [] }

/-- A state of `App` after an earlier build: session `s0` with one file. -/
def appAfterBuild : AppState :=
  { modules := some [{ module_id := "auth" }, { module_id := "ui" }],
    messages := [{ role := .system,
                   content := welcomeContent [{ module_id := "auth" }, { module_id := "ui" }] }],
    currentSession := some "s0",
    files := some [{ path := "index.html", fields := [] }],
    isBuilding := false,
    builds := [] }

/-- A response body that carries a `session_id` but neither `files` nor `message`. -/
def responseWithoutFiles : BuildResponse :=
  { session_id := some "s1", files := none, message := none, setup_warnings := none }

/-- A response body with one file, no message and one setup warning. -/
def responseWithWarning : BuildResponse :=
  { session_id := some "s1", files := some [{ path := "App.jsx", fields := [] }],
    message := none, setup_warnings := some ["Set FIREBASE_KEY"] }

/-! ## Properties stated below -/

/-- The active tab, if any, is the path of an open tab. -/
def ActiveIsOpen (st : ViewerState) : Prop :=
  ∀ p, st.activeTab = some p → p ∈ st.paths

/-! # Theorems -/

/-! ## Closing a tab -/

theorem getElem?_length_sub_one {α : Type} (l : List α) :
    (if l.length > 0 then l[l.length - 1]? else none) = l.getLast? := by
  rw [List.getLast?_eq_getElem?]
  split
  · rfl
  · have : l = [] := by
      cases l with
      | nil => rfl
      | cons a t => simp at *
    subst this; rfl

theorem handleTabClose_eq_of_active (st : ViewerState) (p : String)
    (hactive : st.activeTab = some p) :
    handleTabClose p st =
      match (st.openTabs.filter (fun tab => tab.path != p)).getLast? with
      | some tab =>
        { st with openTabs := st.openTabs.filter (fun tab => tab.path != p),
                  activeTab := some tab.path, fileContent := tab.content,
                  selectedFile := some (.tab tab) }
      | none =>
        { st with openTabs := st.openTabs.filter (fun tab => tab.path != p),
                  activeTab := none, fileContent := "", selectedFile := none } := by
  unfold handleTabClose
  simp only [hactive, if_true, getElem?_length_sub_one]

/-- C1: closing the active tab `p` leaves the open tabs with the tabs of path `p`
filtered out, the others in their order; when a tab remains, the last remaining tab
becomes active and its cached content the current content; when none remains, the
active tab is cleared and the content is empty. -/
theorem handleTabClose_active (st : ViewerState) (p : String)
    (hactive : st.activeTab = some p) :
    (handleTabClose p st).openTabs = st.openTabs.filter (fun tab => tab.path != p) ∧
    (∀ last, (st.openTabs.filter (fun tab => tab.path != p)).getLast? = some last →
      (handleTabClose p st).activeTab = some last.path ∧
      (handleTabClose p st).fileContent = last.content) ∧
    (st.openTabs.filter (fun tab => tab.path != p) = [] →
      (handleTabClose p st).activeTab = none ∧ (handleTabClose p st).fileContent = "") := by
  rw [handleTabClose_eq_of_active st p hactive]
  generalize st.openTabs.filter (fun tab => tab.path != p) = rest
  cases hlast : rest.getLast? with
  | none =>
    refine ⟨rfl, ?_, fun _ => ⟨rfl, rfl⟩⟩
    intro last h
    cases h
  | some tab =>
    refine ⟨rfl, ?_, ?_⟩
    · intro last h
      cases h
      exact ⟨rfl, rfl⟩
    · intro hnil
      subst hnil
      cases hlast

/-- The scenario of C1: open tabs `[A, B, C]`, active `B`; closing `B` gives open tabs
`[A, C]`, active `C`, showing the content of `C`. -/
theorem handleTabClose_active_witness :
    (handleTabClose "B" stateABC).openTabs = [tabA, tabC] ∧
    (handleTabClose "B" stateABC).activeTab = some "C" ∧
    (handleTabClose "B" stateABC).fileContent = "c" := by
  have h := handleTabClose_active stateABC "B" rfl
  have hfilter : stateABC.openTabs.filter (fun tab => tab.path != "B") = [tabA, tabC] := by
    decide
  rw [hfilter] at h
  exact ⟨h.1, h.2.1 tabC rfl⟩

/-! ## Selecting a file -/

theorem find?_path_isNone (tabs : List Tab) (p : String) :
    (tabs.find? (fun tab => tab.path == p)).isNone = true ↔ p ∉ tabs.map Tab.path := by
  rw [Option.isNone_iff_eq_none, List.find?_eq_none]
  simp only [beq_iff_eq, List.mem_map, not_exists, not_and]

theorem map_refresh_paths (tabs : List Tab) (p c : String) :
    (tabs.map (fun tab => if tab.path == p then { tab with content := c } else tab)).map
      Tab.path = tabs.map Tab.path := by
  induction tabs with
  | nil => rfl
  | cons t rest ih =>
    simp only [List.map_cons, ih]
    congr 1
    split <;> rfl

theorem handleFileSelect_content (sid : String) (hsid : truthy (some sid) = true)
    (file : FileRef) (c : String) (st : ViewerState) :
    handleFileSelect (some sid) file (.content c) st =
      { selectedFile := some (.file file)
        fileContent := c
        openTabs :=
          if file.path ∉ st.paths then st.openTabs ++ [Tab.ofFile file c]
          else st.openTabs.map (fun tab =>
            if tab.path == file.path then { tab with content := c } else tab)
        activeTab := some file.path
        loading := false
        fetches := st.fetches ++ [(sid, file.path)] } := by
  simp only [handleFileSelect, hsid, if_true, handleFileSelectSettle, handleFileSelectStart,
    ViewerState.paths, find?_path_isNone]

theorem handleFileSelect_falsy (sessionId : Option String) (h : truthy sessionId = false)
    (file : FileRef) (result : FetchResult) (st : ViewerState) :
    handleFileSelect sessionId file result st = st := by
  cases sessionId with
  | none => rfl
  | some sid => simp [handleFileSelect, h]

/-- C10: with an active session a failed fetch puts the fixed error text in the view,
leaves the open tabs, the active tab and the selected file as they were and ends with
`loading` false; with no active session `handleFileSelect` returns the state unchanged
(no fetch is issued either). -/
theorem handleFileSelect_failure (st : ViewerState) (file : FileRef) :
    (∀ sid, truthy (some sid) = true →
      (handleFileSelect (some sid) file .failure st).fileContent =
        "// Error loading file content" ∧
      (handleFileSelect (some sid) file .failure st).openTabs = st.openTabs ∧
      (handleFileSelect (some sid) file .failure st).activeTab = st.activeTab ∧
      (handleFileSelect (some sid) file .failure st).selectedFile = st.selectedFile ∧
      (handleFileSelect (some sid) file .failure st).loading = false) ∧
    (∀ sessionId result, truthy sessionId = false →
      handleFileSelect sessionId file result st = st) := by
  refine ⟨?_, ?_⟩
  · intro sid hsid
    simp [handleFileSelect, hsid, handleFileSelectSettle, handleFileSelectStart]
  · intro sessionId result h
    exact handleFileSelect_falsy sessionId h file result st

/-- An instance of C10: session `s1`, tabs `[A, B, C]`, the fetch of `B` fails. -/
theorem handleFileSelect_failure_witness :
    (handleFileSelect (some "s1") { path := "B", fields := [] } .failure stateABC).fileContent =
        "// Error loading file content" ∧
    (handleFileSelect (some "s1") { path := "B", fields := [] } .failure stateABC).openTabs =
        [tabA, tabB, tabC] ∧
    handleFileSelect none { path := "B", fields := [] } (.content "new") stateABC = stateABC :=
  have h := handleFileSelect_failure stateABC { path := "B", fields := [] }
  ⟨(h.1 "s1" (by decide)).1, (h.1 "s1" (by decide)).2.1, h.2 none (.content "new") rfl⟩

/-! ## Invariants of the tab workspace -/

theorem handleFileSelect_failure_eq (sid : String) (hsid : truthy (some sid) = true)
    (file : FileRef) (st : ViewerState) :
    handleFileSelect (some sid) file .failure st =
      { st with fileContent := "// Error loading file content", loading := false,
                fetches := st.fetches ++ [(sid, file.path)] } := by
  simp [handleFileSelect, hsid, handleFileSelectSettle, handleFileSelectStart]

theorem handleFileSelect_paths (sessionId : Option String) (file : FileRef)
    (result : FetchResult) (st : ViewerState) :
    (handleFileSelect sessionId file result st = st ∨
      ((handleFileSelect sessionId file result st).openTabs = st.openTabs ∧
        (handleFileSelect sessionId file result st).activeTab = st.activeTab)) ∨
    ((handleFileSelect sessionId file result st).activeTab = some file.path ∧
      ((file.path ∉ st.paths ∧
          (handleFileSelect sessionId file result st).paths = st.paths ++ [file.path]) ∨
        (file.path ∈ st.paths ∧
          (handleFileSelect sessionId file result st).paths = st.paths))) := by
  by_cases hsid : truthy sessionId = true
  · cases sessionId with
    | none => simp [truthy] at hsid
    | some sid =>
      cases result with
      | failure =>
        left; right
        rw [handleFileSelect_failure_eq sid hsid]
        exact ⟨rfl, rfl⟩
      | content c =>
        right
        rw [handleFileSelect_content sid hsid]
        refine ⟨rfl, ?_⟩
        by_cases hopen : file.path ∈ st.paths
        · right
          refine ⟨hopen, ?_⟩
          simp only [ViewerState.paths] at hopen ⊢
          simp only [ViewerState.paths, hopen, not_true_eq_false, if_false]
          exact map_refresh_paths st.openTabs file.path c
        · left
          refine ⟨hopen, ?_⟩
          simp only [ViewerState.paths] at hopen ⊢
          simp [ViewerState.paths, hopen, Tab.ofFile]
  · left; left
    exact handleFileSelect_falsy sessionId (by simpa using hsid) file result st

theorem handleTabClose_openTabs (path : String) (st : ViewerState) :
    (handleTabClose path st).openTabs = st.openTabs.filter (fun tab => tab.path != path) := by
  unfold handleTabClose
  simp only [getElem?_length_sub_one]
  split
  · split <;> rfl
  · rfl

theorem ActiveIsOpen_apply (st : ViewerState) (h : ActiveIsOpen st) (operation : Operation) :
    ActiveIsOpen (operation.apply st) := by
  cases operation with
  | selectFile sessionId file result =>
    simp only [Operation.apply]
    rcases handleFileSelect_paths sessionId file result st with
      (heq | ⟨htabs, hact⟩) | ⟨hact, (⟨_, hpaths⟩ | ⟨hopen, hpaths⟩)⟩
    · rw [heq]; exact h
    · intro p hp
      rw [hact] at hp
      simpa [ViewerState.paths, htabs] using h p hp
    · intro p hp
      rw [hact] at hp
      cases hp
      rw [hpaths]
      simp
    · intro p hp
      rw [hact] at hp
      cases hp
      rw [hpaths]
      exact hopen
  | closeTab path =>
    simp only [Operation.apply]
    intro p hp
    have htabs := handleTabClose_openTabs path st
    by_cases hactive : st.activeTab = some path
    · rw [handleTabClose_eq_of_active st path hactive] at hp
      cases hlast : (st.openTabs.filter (fun tab => tab.path != path)).getLast? with
      | none =>
        rw [hlast] at hp
        cases hp
      | some last =>
        rw [hlast] at hp
        cases hp
        simp only [ViewerState.paths, htabs]
        exact List.mem_map_of_mem _ (List.mem_of_mem_getLast? hlast)
    · have hkeep : (handleTabClose path st).activeTab = st.activeTab := by
        simp [handleTabClose, hactive]
      rw [hkeep] at hp
      have hmem := h p hp
      simp only [ViewerState.paths, htabs, List.mem_map] at hmem ⊢
      obtain ⟨tab, htab, rfl⟩ := hmem
      refine ⟨tab, List.mem_filter.mpr ⟨htab, ?_⟩, rfl⟩
      simp only [bne_iff_ne, ne_eq]
      intro e
      exact hactive (by rw [hp, e])
  | switchTab index =>
    simp only [Operation.apply]
    cases hget : st.openTabs[index]? with
    | none => exact h
    | some tab =>
      intro p hp
      simp only [handleTabSwitch] at hp
      cases hp
      simp only [ViewerState.paths, handleTabSwitch]
      exact List.mem_map_of_mem _ (List.getElem?_mem hget)

theorem ActiveIsOpen_run (operations : List Operation) (st : ViewerState)
    (h : ActiveIsOpen st) : ActiveIsOpen (runOperations operations st) := by
  induction operations generalizing st with
  | nil => exact h
  | cons operation rest ih => exact ih _ (ActiveIsOpen_apply st h operation)

/-- When every selection settles before the next event, the active tab is none or the
path of an open tab after every sequence of operations from the initial state. -/
theorem activeTab_open_of_runOperations (operations : List Operation) :
    (runOperations operations ViewerState.initial).activeTab = none ∨
    ∃ tab ∈ (runOperations operations ViewerState.initial).openTabs,
      (runOperations operations ViewerState.initial).activeTab = some tab.path := by
  have h := ActiveIsOpen_run operations ViewerState.initial (by intro p hp; cases hp)
  cases hact : (runOperations operations ViewerState.initial).activeTab with
  | none => exact Or.inl rfl
  | some p =>
    right
    have hmem := h p hact
    simp only [ViewerState.paths, List.mem_map] at hmem
    obtain ⟨tab, htab, rfl⟩ := hmem
    exact ⟨tab, htab, rfl⟩

theorem Nodup_paths_apply (st : ViewerState) (h : st.paths.Nodup) (operation : Operation) :
    (operation.apply st).paths.Nodup := by
  cases operation with
  | selectFile sessionId file result =>
    simp only [Operation.apply]
    rcases handleFileSelect_paths sessionId file result st with
      (heq | ⟨htabs, _⟩) | ⟨_, (⟨hnew, hpaths⟩ | ⟨_, hpaths⟩)⟩
    · rw [heq]; exact h
    · simpa [ViewerState.paths, htabs] using h
    · rw [hpaths]
      exact List.nodup_append.mpr ⟨h, List.nodup_singleton _, by
        intro a ha hb
        rw [List.mem_singleton] at hb
        exact hnew (hb ▸ ha)⟩
    · rw [hpaths]; exact h
  | closeTab path =>
    simp only [Operation.apply, ViewerState.paths, handleTabClose_openTabs]
    exact (List.filter_sublist _).map Tab.path |>.nodup h
  | switchTab index =>
    simp only [Operation.apply]
    cases st.openTabs[index]? with
    | none => exact h
    | some tab => exact h

theorem Nodup_paths_run (operations : List Operation) (st : ViewerState)
    (h : st.paths.Nodup) : (runOperations operations st).paths.Nodup := by
  induction operations generalizing st with
  | nil => exact h
  | cons operation rest ih => exact ih _ (Nodup_paths_apply st h operation)

/-- When every selection settles before the next event, no two open tabs have the same
path after any sequence of operations from the initial state. -/
theorem paths_nodup_of_runOperations (operations : List Operation) :
    (runOperations operations ViewerState.initial).paths.Nodup :=
  Nodup_paths_run operations _ List.nodup_nil

/-- A successful selection, settled with no event in between, of a path that is open
keeps the number of tabs and their paths and changes nothing but the content of the
tabs of that path; of a path that is not open it appends one tab at the end. -/
theorem handleFileSelect_openTabs (st : ViewerState) (sid : String) (file : FileRef)
    (c : String) (hsid : truthy (some sid) = true) :
    (file.path ∈ st.paths →
      (handleFileSelect (some sid) file (.content c) st).openTabs.length =
        st.openTabs.length ∧
      (handleFileSelect (some sid) file (.content c) st).paths = st.paths ∧
      (handleFileSelect (some sid) file (.content c) st).openTabs =
        st.openTabs.map (fun tab =>
          if tab.path = file.path then { tab with content := c } else tab)) ∧
    (file.path ∉ st.paths →
      (handleFileSelect (some sid) file (.content c) st).openTabs =
        st.openTabs ++ [{ path := file.path, fields := file.fields, content := c }]) := by
  refine ⟨?_, ?_⟩
  · intro hopen
    rw [handleFileSelect_content sid hsid]
    simp only [if_neg (not_not.mpr hopen)]
    refine ⟨List.length_map _ _, map_refresh_paths st.openTabs file.path c, ?_⟩
    simp only [beq_iff_eq]
  · intro hnew
    rw [handleFileSelect_content sid hsid]
    simp only [hnew, not_false_eq_true, if_true, Tab.ofFile]

/-! ## Switching between tabs -/

/-- C7: after a successful selection of `file` that fetched `c`, a switch to any open
tab followed by a switch to the tab of `file.path` ends with `file.path` active and `c`
as the current content, and the list of fetches is still the one left by the selection:
the earlier fetches and the single fetch of `file.path`.  Every tab that was open is
still offered by the tab bar, and so is a tab of path `file.path`. -/
theorem select_switch_switch (st : ViewerState) (sid : String) (file : FileRef)
    (c : String) (hsid : truthy (some sid) = true) :
    (∃ tab ∈ (handleFileSelect (some sid) file (.content c) st).openTabs,
      tab.path = file.path) ∧
    (∀ other ∈ st.openTabs,
      ∃ other1 ∈ (handleFileSelect (some sid) file (.content c) st).openTabs,
        other1.path = other.path) ∧
    (handleFileSelect (some sid) file (.content c) st).fetches =
      st.fetches ++ [(sid, file.path)] ∧
    ∀ other1 ∈ (handleFileSelect (some sid) file (.content c) st).openTabs,
      ∀ tab ∈ (handleFileSelect (some sid) file (.content c) st).openTabs,
        tab.path = file.path →
        (handleTabSwitch tab (handleTabSwitch other1
          (handleFileSelect (some sid) file (.content c) st))).activeTab = some file.path ∧
        (handleTabSwitch tab (handleTabSwitch other1
          (handleFileSelect (some sid) file (.content c) st))).fileContent = c ∧
        (handleTabSwitch tab (handleTabSwitch other1
          (handleFileSelect (some sid) file (.content c) st))).fetches =
          st.fetches ++ [(sid, file.path)] := by
  rw [handleFileSelect_content sid hsid]
  have hcontent : ∀ tab ∈ (if file.path ∉ st.paths then st.openTabs ++ [Tab.ofFile file c]
      else st.openTabs.map (fun tab =>
        if tab.path == file.path then { tab with content := c } else tab)),
      tab.path = file.path → tab.content = c := by
    intro tab htab hpath
    split at htab
    · rename_i hnew
      rcases List.mem_append.mp htab with h | h
      · exact absurd (hpath ▸ List.mem_map_of_mem Tab.path h) hnew
      · rw [List.mem_singleton] at h
        rw [h]; rfl
    · obtain ⟨t, _, rfl⟩ := List.mem_map.mp htab
      by_cases ht : (t.path == file.path) = true
      · rw [if_pos ht]
      · rw [if_neg ht] at hpath
        exact absurd (by simpa using hpath) ht
  have hmem : ∀ q, q ∈ st.paths ∨ q = file.path →
      ∃ tab ∈ (if file.path ∉ st.paths then st.openTabs ++ [Tab.ofFile file c]
        else st.openTabs.map (fun tab =>
          if tab.path == file.path then { tab with content := c } else tab)),
        tab.path = q := by
    intro q hq
    have : q ∈ List.map Tab.path (if file.path ∉ st.paths then
        st.openTabs ++ [Tab.ofFile file c]
        else st.openTabs.map (fun tab =>
          if tab.path == file.path then { tab with content := c } else tab)) := by
      split
      · rw [List.map_append, List.mem_append]
        rcases hq with h | h
        · exact Or.inl h
        · right; simp [Tab.ofFile, h]
      · rename_i hopen
        rw [map_refresh_paths]
        rcases hq with h | h
        · exact h
        · rw [h]; exact not_not.mp hopen
    obtain ⟨tab, htab, hp⟩ := List.mem_map.mp this
    exact ⟨tab, htab, hp⟩
  refine ⟨hmem file.path (Or.inr rfl), ?_, rfl, ?_⟩
  · intro other hother
    exact hmem other.path (Or.inl (List.mem_map_of_mem Tab.path hother))
  · intro other1 _ tab htab hpath
    refine ⟨?_, ?_, rfl⟩
    · simp only [handleTabSwitch, hpath]
    · simp only [handleTabSwitch]
      exact hcontent tab htab hpath

/-- An instance of C7: tabs `[A, B, C]`; `D` is selected and fetched as `d`; a switch
to `A` and back to the tab of `D` shows `d` again with the one fetch of `D` on record. -/
theorem select_switch_switch_witness :
    (handleTabSwitch { path := "D", fields := [], content := "d" } (handleTabSwitch tabA
      (handleFileSelect (some "s1") fileD (.content "d") stateABC))).activeTab = some "D" ∧
    (handleTabSwitch { path := "D", fields := [], content := "d" } (handleTabSwitch tabA
      (handleFileSelect (some "s1") fileD (.content "d") stateABC))).fileContent = "d" ∧
    (handleTabSwitch { path := "D", fields := [], content := "d" } (handleTabSwitch tabA
      (handleFileSelect (some "s1") fileD (.content "d") stateABC))).fetches =
        [("s1", "D")] :=
  (select_switch_switch stateABC "s1" fileD "d" (by decide)).2.2.2
    tabA (by decide) { path := "D", fields := [], content := "d" } (by decide) rfl

/-! ## Build requests -/

theorem handleSendMessage_resolved (st : AppState) (userMessage : String)
    (response : BuildResponse) (files : List FileRef) (content : String)
    (hfiles : response.files = some files) (hcontent : assistantContent response = .ok content) :
    handleSendMessage userMessage (.resolved response) st =
      .ok { modules := st.modules
            messages := st.messages ++ [{ role := .user, content := userMessage }] ++
              [{ role := .assistant, content := content }] ++ warningTurns response
            currentSession := response.session_id
            files := some files
            isBuilding := false
            builds := st.builds ++ [userMessage] } := by
  simp [handleSendMessage, handleSendMessageSettle, handleSendMessageStart, hcontent,
    render, hfiles]

theorem assistantContent_of_files (response : BuildResponse) (files : List FileRef)
    (hfiles : response.files = some files) :
    assistantContent response =
      .ok (if truthy response.message = true then response.message.getD ""
           else "Successfully generated " ++ toString files.length ++ " files!") := by
  unfold assistantContent defaultContent
  rw [hfiles]
  split <;> rfl

/-- C5: after a build that resolved with session id `s` and file list `files`, the
render goes through, the file list of `App` is `files`, whatever it was before, and the
current session is `s`. -/
theorem handleSendMessage_success (st : AppState) (userMessage s : String)
    (files : List FileRef) (message : Option String) (warnings : Option (List String)) :
    ∃ st1,
      handleSendMessage userMessage (.resolved
        { session_id := some s, files := some files, message := message,
          setup_warnings := warnings }) st = .ok st1 ∧
      st1.files = some files ∧
      st1.currentSession = some s := by
  refine ⟨_, handleSendMessage_resolved st userMessage _ files _ rfl
    (assistantContent_of_files _ files rfl), rfl, rfl⟩

/-- The failing instance of C2: the build resolves with a body that has a `session_id`
but no `files` and no `message`.  The `catch` block does not run; the render that follows
throws on `undefined.length`, so no state results in which a system turn was appended to
the transcript and the session and file list were kept. -/
theorem handleSendMessage_malformed_throws :
    handleSendMessage "build it" (.resolved responseWithoutFiles) appAfterBuild =
      .error lengthOfUndefined ∧
    ¬ ∃ st1 turn,
        handleSendMessage "build it" (.resolved responseWithoutFiles) appAfterBuild =
          .ok st1 ∧
        turn.role = .system ∧
        st1.messages = appAfterBuild.messages ++
          [{ role := .user, content := "build it" }, turn] ∧
        st1.currentSession = appAfterBuild.currentSession ∧
        st1.files = appAfterBuild.files := by
  have h : handleSendMessage "build it" (.resolved responseWithoutFiles) appAfterBuild =
      .error lengthOfUndefined := rfl
  refine ⟨h, ?_⟩
  rintro ⟨st1, turn, hok, _⟩
  rw [h] at hok
  cases hok

/-- C2, amended: when the gateway call throws, `handleSendMessage` ends in a state in
which the user turn and one system turn `Error: ...`, carrying the message of the error
or else `Failed to build app`, are appended to the transcript, and the session, the file
list and the module list are the ones before the call; `isBuilding` ends false. -/
theorem handleSendMessage_thrown (st : AppState) (userMessage : String) (error : JsError) :
    ∃ st1 text,
      handleSendMessage userMessage (.thrown error) st = .ok st1 ∧
      st1.messages = st.messages ++ [{ role := .user, content := userMessage },
                                     { role := .system, content := "Error: " ++ text }] ∧
      (∀ m, error.message = some m → m ≠ "" → text = m) ∧
      (error.message = none ∨ error.message = some "" → text = "Failed to build app") ∧
      st1.currentSession = st.currentSession ∧
      st1.files = st.files ∧
      st1.modules = st.modules ∧
      st1.isBuilding = false := by
  refine ⟨_, errorText error, rfl, ?_, ?_, ?_, rfl, rfl, rfl, rfl⟩
  · simp [handleSendMessageStart, buildFailed]
  · intro m hm hne
    simp [errorText, hm, truthy, hne]
  · rintro (h | h) <;> simp [errorText, h, truthy]

/-- An instance of the amended C2: the gateway throws `Network Error` after an earlier
build; the error turn is appended and session `s0` with its file is kept. -/
theorem handleSendMessage_thrown_witness :
    ∃ st1,
      handleSendMessage "build it" (.thrown { message := some "Network Error" })
        appAfterBuild = .ok st1 ∧
      st1.messages = appAfterBuild.messages ++
        [{ role := .user, content := "build it" },
         { role := .system, content := "Error: Network Error" }] ∧
      st1.currentSession = some "s0" ∧
      st1.files = some [{ path := "index.html", fields := [] }] := by
  obtain ⟨st1, text, hok, hmessages, htext, _, hsession, hfiles, _, _⟩ :=
    handleSendMessage_thrown appAfterBuild "build it" { message := some "Network Error" }
  refine ⟨st1, hok, ?_, hsession, hfiles⟩
  rw [hmessages, htext "Network Error" rfl (by decide)]
  rfl

/-! ## The transcript -/

theorem handleSendMessage_messages (st : AppState) (userMessage : String)
    (result : Outcome BuildResponse) (st1 : AppState)
    (hok : handleSendMessage userMessage result st = .ok st1) :
    ∃ added, st1.messages =
      st.messages ++ ({ role := .user, content := userMessage } :: added) := by
  cases result with
  | thrown error =>
    simp only [handleSendMessage, handleSendMessageSettle, Except.ok.injEq] at hok
    subst hok
    exact ⟨[{ role := .system, content := "Error: " ++ errorText error }], by
      simp [handleSendMessageStart, buildFailed]⟩
  | resolved response =>
    simp only [handleSendMessage, handleSendMessageSettle] at hok
    cases hcontent : assistantContent response with
    | error error => rw [hcontent] at hok; cases hok
    | ok content =>
      rw [hcontent] at hok
      simp only [render] at hok
      split at hok
      · simp only [Except.ok.injEq] at hok
        subst hok
        exact ⟨{ role := .assistant, content := content } :: warningTurns response, by
          simp [handleSendMessageStart]⟩
      · cases hok

/-- The failing instance of C6: the user submits `hi` before module discovery has
completed; when it completes, the transcript is the welcome turn alone and the user
turn is gone. -/
theorem loadModules_drops_transcript :
    (handleSendMessageStart "hi" AppState.initial).messages =
      [{ role := .user, content := "hi" }] ∧
    (loadModules (.resolved (some [{ module_id := "auth" }, { module_id := "ui" }]))
      (handleSendMessageStart "hi" AppState.initial)).messages =
      [{ role := .system,
         content := "Welcome! I have 2 modules available: auth, ui. What would you like to build?" }] ∧
    ¬ ((handleSendMessageStart "hi" AppState.initial).messages <+:
        (loadModules (.resolved (some [{ module_id := "auth" }, { module_id := "ui" }]))
          (handleSendMessageStart "hi" AppState.initial)).messages) := by
  refine ⟨by decide, by decide, ?_⟩
  intro h
  have heq := h.eq_of_length (by decide)
  exact absurd heq (by decide)

/-- C6, amended: `handleSendMessage` only appends.  Whenever a state results, the
transcript before the call is a prefix of the transcript after it, and a state does
result when the gateway throws and when the build resolves with a file list.  The
completion of `loadModules` sets the transcript to a single system turn: the welcome
turn that counts and lists the modules when the list arrived, the connection error turn
when the call threw or the body had no module list.  The transcript before it is a
prefix of that exactly when it was empty or was that single turn already. -/
theorem transcript_writes :
    (∀ (st st1 : AppState) (userMessage : String) (result : Outcome BuildResponse),
      handleSendMessage userMessage result st = .ok st1 → st.messages <+: st1.messages) ∧
    (∀ (st : AppState) (userMessage : String) (error : JsError),
      ∃ st1, handleSendMessage userMessage (.thrown error) st = .ok st1) ∧
    (∀ (st : AppState) (userMessage : String) (response : BuildResponse)
        (files : List FileRef), response.files = some files →
      ∃ st1, handleSendMessage userMessage (.resolved response) st = .ok st1) ∧
    (∀ (st : AppState) (data : List ModuleInfo),
      (loadModules (.resolved (some data)) st).messages =
        [{ role := .system,
           content := "Welcome! I have " ++ toString data.length ++
             " modules available: " ++ join ", " (data.map ModuleInfo.module_id) ++
             ". What would you like to build?" }]) ∧
    (∀ (st : AppState) (result : Outcome (Option (List ModuleInfo))),
      (result = .resolved none ∨ ∃ error, result = .thrown error) →
      (loadModules result st).messages =
        [{ role := .system,
           content :=
             "Error connecting to backend. Please ensure the server is running on port 8000." }]) ∧
    (∀ (st : AppState) (result : Outcome (Option (List ModuleInfo))),
      st.messages <+: (loadModules result st).messages ↔
        st.messages = [] ∨ st.messages = (loadModules result st).messages) := by
  refine ⟨?_, ?_, ?_, ?_, ?_, ?_⟩
  · intro st st1 userMessage result hok
    obtain ⟨added, h⟩ := handleSendMessage_messages st userMessage result st1 hok
    rw [h]
    exact List.prefix_append _ _
  · intro st userMessage error
    exact ⟨_, rfl⟩
  · intro st userMessage response files hfiles
    exact ⟨_, handleSendMessage_resolved st userMessage response files _ hfiles
      (assistantContent_of_files response files hfiles)⟩
  · intro st data
    rfl
  · rintro st result (h | ⟨error, h⟩) <;> subst h <;> rfl
  · intro st result
    have hone : ∃ turn, (loadModules result st).messages = [turn] := by
      cases result with
      | thrown error => exact ⟨_, rfl⟩
      | resolved value =>
        cases value with
        | none => exact ⟨_, rfl⟩
        | some data => exact ⟨_, rfl⟩
    obtain ⟨turn, h⟩ := hone
    rw [h]
    constructor
    · intro hpre
      cases hm : st.messages with
      | nil => exact Or.inl rfl
      | cons a rest =>
        right
        rw [hm] at hpre
        exact hpre.eq_of_length_le (by simp)
    · rintro (h0 | h1)
      · rw [h0]; exact List.nil_prefix
      · rw [h1]

/-- Instances of the amended C6: a build that throws and a build that resolves with a
file and a warning both extend the transcript of `appAfterBuild`; module discovery that
completes on the empty transcript of a fresh `App` extends it, and its failure writes
the connection error turn. -/
theorem transcript_writes_witness :
    (∀ st1, handleSendMessage "build it" (.resolved responseWithWarning) appAfterBuild =
        .ok st1 → appAfterBuild.messages <+: st1.messages) ∧
    (∃ st1, handleSendMessage "build it" (.resolved responseWithWarning) appAfterBuild =
        .ok st1) ∧
    (loadModules (.thrown { message := some "Network Error" }) AppState.initial).messages =
      [{ role := .system,
         content :=
           "Error connecting to backend. Please ensure the server is running on port 8000." }] ∧
    AppState.initial.messages <+:
      (loadModules (.resolved (some [{ module_id := "auth" }])) AppState.initial).messages :=
  ⟨fun st1 hok => transcript_writes.1 appAfterBuild st1 "build it" _ hok,
   transcript_writes.2.2.1 appAfterBuild "build it" responseWithWarning
     [{ path := "App.jsx", fields := [] }] rfl,
   transcript_writes.2.2.2.2.1 AppState.initial _ (Or.inr ⟨_, rfl⟩),
   (transcript_writes.2.2.2.2.2 AppState.initial _).mpr (Or.inl rfl)⟩

theorem join_contains (sep : String) :
    ∀ (ws : List String) (w : String), w ∈ ws → ∃ pre post, join sep ws = pre ++ w ++ post
  | [], w, h => by cases h
  | [a], w, h => by
    rw [List.mem_singleton] at h
    subst h
    exact ⟨"", "", by simp [join]⟩
  | a :: b :: rest, w, h => by
    rcases List.mem_cons.mp h with h | h
    · subst h
      exact ⟨"", sep ++ join sep (b :: rest), by simp [join, String.append_assoc]⟩
    · obtain ⟨pre, post, e⟩ := join_contains sep (b :: rest) w h
      exact ⟨a ++ sep ++ pre, post, by simp [join, e, String.append_assoc]⟩

/-- C9: after a build of prompt `userMessage` that resolved with a file list, the
render goes through and the transcript is the one before, then the user turn with the
prompt, then an assistant turn, then the warning turns.  The assistant turn carries the
message of the response when that is a non-empty string, and
`Successfully generated N files!`, `N` the number of files, when the message is missing
or empty.  With a non-empty `setup_warnings` the warning turns are one system turn whose
content contains every warning; with none, or an empty list, there is no warning turn. -/
theorem handleSendMessage_transcript (st : AppState) (userMessage : String)
    (response : BuildResponse) (files : List FileRef)
    (hfiles : response.files = some files) :
    ∃ content st1,
      handleSendMessage userMessage (.resolved response) st = .ok st1 ∧
      st1.messages =
        st.messages ++ [{ role := .user, content := userMessage },
                        { role := .assistant, content := content }] ++
          warningTurns response ∧
      (∀ m, response.message = some m → m ≠ "" → content = m) ∧
      (response.message = none ∨ response.message = some "" →
        content = "Successfully generated " ++ toString files.length ++ " files!") ∧
      (∀ ws, response.setup_warnings = some ws → ws ≠ [] →
        ∃ text, warningTurns response = [{ role := .system, content := text }] ∧
          ∀ w ∈ ws, ∃ pre post, text = pre ++ w ++ post) ∧
      (response.setup_warnings = none ∨ response.setup_warnings = some [] →
        warningTurns response = []) := by
  have hwarn : (∀ ws, response.setup_warnings = some ws → ws ≠ [] →
        ∃ text, warningTurns response = [{ role := .system, content := text }] ∧
          ∀ w ∈ ws, ∃ pre post, text = pre ++ w ++ post) ∧
      (response.setup_warnings = none ∨ response.setup_warnings = some [] →
        warningTurns response = []) := by
    refine ⟨?_, ?_⟩
    · intro ws hws hne
      have hlen : ws.length > 0 := List.length_pos.mpr hne
      refine ⟨"⚠️ Setup Required:\n" ++ join "\n" ws, by simp [warningTurns, hws, hlen], ?_⟩
      intro w hw
      obtain ⟨pre, post, e⟩ := join_contains "\n" ws w hw
      exact ⟨"⚠️ Setup Required:\n" ++ pre, post, by rw [e]; simp [String.append_assoc]⟩
    · rintro (h | h) <;> simp [warningTurns, h]
  refine ⟨if truthy response.message = true then response.message.getD ""
      else "Successfully generated " ++ toString files.length ++ " files!", _,
    handleSendMessage_resolved st userMessage response files _ hfiles
      (assistantContent_of_files response files hfiles), ?_, ?_, ?_, hwarn⟩
  · simp
  · intro m hm hne
    simp [hm, truthy, hne]
  · rintro (h | h) <;> simp [h, truthy]

/-- The scenario of C9: the response has no message, one file and
`setup_warnings: ["Set FIREBASE_KEY"]`; the transcript gains the user turn, the default
assistant turn and exactly one system turn, which contains the warning. -/
theorem handleSendMessage_transcript_witness :
    ∃ text st1,
      handleSendMessage "Create a landing page" (.resolved responseWithWarning)
        appAfterBuild = .ok st1 ∧
      st1.messages =
        appAfterBuild.messages ++
          [{ role := .user, content := "Create a landing page" },
           { role := .assistant, content := "Successfully generated 1 files!" },
           { role := .system, content := text }] ∧
      ∃ pre post, text = pre ++ "Set FIREBASE_KEY" ++ post := by
  obtain ⟨content, st1, hok, hmessages, _, hdefault, hwarn, _⟩ :=
    handleSendMessage_transcript appAfterBuild "Create a landing page" responseWithWarning
      [{ path := "App.jsx", fields := [] }] rfl
  obtain ⟨text, hturns, hall⟩ := hwarn ["Set FIREBASE_KEY"] rfl (by decide)
  refine ⟨text, st1, hok, ?_, hall "Set FIREBASE_KEY" (List.mem_singleton.mpr rfl)⟩
  rw [hmessages, hturns, hdefault (Or.inl rfl)]
  rfl

/-! ## The submission gate -/

theorem dropWhile_twice_eq_nil (p : Char → Bool) (l : List Char) :
    ((l.dropWhile p).reverse.dropWhile p) = [] ↔ ∀ c ∈ l, p c = true := by
  rw [List.dropWhile_eq_nil_iff]
  constructor
  · intro h
    have hnil : l.dropWhile p = [] := by
      cases hd : l.dropWhile p with
      | nil => rfl
      | cons a t =>
        have hne : l.dropWhile p ≠ [] := by rw [hd]; exact List.cons_ne_nil a t
        have hhead := List.head_dropWhile_not p l hne
        have ha : p a = true := h a (by rw [hd]; simp)
        simp only [hd, List.head_cons] at hhead
        rw [ha] at hhead
        cases hhead
    exact List.dropWhile_eq_nil_iff.mp hnil
  · intro h c hc
    rw [List.mem_reverse] at hc
    exact h c ((List.dropWhile_suffix p).subset hc)

theorem trim_eq_empty_iff (s : String) :
    trim s = "" ↔ ∀ c ∈ s.data, isJsWhiteSpace c = true := by
  rw [← dropWhile_twice_eq_nil]
  unfold trim
  constructor
  · intro h
    have hdata := congrArg String.data h
    simpa using hdata
  · intro h
    rw [h]
    rfl

/-- C8: `handleSubmit` calls `onSendMessage` exactly when the trimmed input is not empty
and no build is in flight, and the argument of the call is the trimmed input.  The
trimmed input is empty exactly when the input is empty or all white space.  In `App` an
accepted submission starts `handleSendMessage` on the trimmed input; a submission of
empty or white-space input, or during a build, leaves the state of `App` as it was: no
transcript entry is added and no build request is issued. -/
theorem handleSubmit_gate (input : String) (isBuilding : Bool) :
    ((handleSubmit input isBuilding).1.isSome = true ↔
      trim input ≠ "" ∧ isBuilding = false) ∧
    (∀ p, (handleSubmit input isBuilding).1 = some p → p = trim input) ∧
    (trim input = "" ↔ ∀ c ∈ input.data, isJsWhiteSpace c = true) ∧
    (∀ st : AppState, st.isBuilding = isBuilding →
      (trim input ≠ "" ∧ isBuilding = false →
        (submit input st).1 = handleSendMessageStart (trim input) st) ∧
      (trim input = "" ∨ isBuilding = true →
        (submit input st).1 = st ∧
        (submit input st).1.messages = st.messages ∧
        (submit input st).1.builds = st.builds)) := by
  by_cases hempty : trim input = ""
  · refine ⟨?_, ?_, trim_eq_empty_iff input, ?_⟩
    · simp [handleSubmit, truthy, hempty]
    · simp [handleSubmit, truthy, hempty]
    · intro st hst
      simp [submit, handleSubmit, truthy, hempty]
  · cases isBuilding with
    | true =>
      refine ⟨?_, ?_, trim_eq_empty_iff input, ?_⟩
      · simp [handleSubmit]
      · simp [handleSubmit]
      · intro st hst
        simp [submit, handleSubmit, hst]
    | false =>
      refine ⟨?_, ?_, trim_eq_empty_iff input, ?_⟩
      · simp [handleSubmit, truthy, hempty]
      · intro p hp
        simp [handleSubmit, truthy, hempty] at hp
        exact hp.symm
      · intro st hst
        simp [submit, handleSubmit, truthy, hempty, hst]

/-- Instances of C8: the padded prompt is passed on trimmed; an all-blank input, or any
input during a build, changes nothing in `App`. -/
theorem handleSubmit_gate_witness :
    (handleSubmit "  Create a landing page \n" false).1 = some "Create a landing page" ∧
    (submit " \t " appAfterBuild).1 = appAfterBuild ∧
    (submit "second" (handleSendMessageStart "first" appAfterBuild)).1 =
      handleSendMessageStart "first" appAfterBuild := by
  refine ⟨?_, ?_, ?_⟩
  · have h := (handleSubmit_gate "  Create a landing page \n" false).2.1
    cases hs : (handleSubmit "  Create a landing page \n" false).1 with
    | none => exact absurd hs (by decide)
    | some p => rw [h p hs]; decide
  · exact (((handleSubmit_gate " \t " false).2.2.2 appAfterBuild rfl).2
      (Or.inl (by decide))).1
  · exact (((handleSubmit_gate "second" true).2.2.2
      (handleSendMessageStart "first" appAfterBuild) rfl).2 (Or.inr rfl)).1

/-! ## Events during a pending fetch

`handleFileSelect` looks the path up in the `openTabs` of the render it was created in
(line 22) and sets the active tab whatever the open tabs have become (line 33).  The
runs of operations above are the runs of the component in which no event arrives while
a fetch is pending; the two runs below are not of that kind.
-/

theorem runViewer_append (events more : List ViewerEvent) (w : Workspace) :
    runViewer (events ++ more) w = runViewer more (runViewer events w) := by
  simp [runViewer, List.foldl_append]

theorem runViewer_operation (operation : Operation) (st : ViewerState) :
    runViewer operation.events { view := st, pending := [] } =
      { view := operation.apply st, pending := [] } := by
  cases operation with
  | selectFile sessionId file result =>
    cases sessionId with
    | none => rfl
    | some sid =>
      by_cases hsid : truthy (some sid) = true
      · simp [Operation.events, runViewer, ViewerEvent.apply, Operation.apply,
          handleFileSelect, hsid, handleFileSelectStart]
      · simp [Operation.events, runViewer, ViewerEvent.apply, Operation.apply,
          handleFileSelect, hsid]
  | closeTab path => rfl
  | switchTab index =>
    simp only [Operation.events, runViewer, ViewerEvent.apply, Operation.apply,
      List.foldl_cons, List.foldl_nil]
    cases st.openTabs[index]? <;> rfl

theorem runViewer_operations (operations : List Operation) (st : ViewerState) :
    runViewer (operations.flatMap Operation.events) { view := st, pending := [] } =
      { view := runOperations operations st, pending := [] } := by
  induction operations generalizing st with
  | nil => rfl
  | cons operation rest ih =>
    rw [List.flatMap_cons, runViewer_append, runViewer_operation, ih]
    rfl

/-- C4, at the failing run: from the initial state, file `B` is clicked twice before
either fetch has settled and both fetches then resolve.  Each call still sees the empty
`openTabs` of its click and appends a tab: the open tabs end with path `B` twice, so the
paths of the open tabs are not distinct. -/
theorem overlapping_selections_duplicate :
    (runViewer [.clickFile (some "s1") fileB, .clickFile (some "s1") fileB,
                .fetchSettled 0 (.content "b"), .fetchSettled 0 (.content "b")]
      Workspace.initial).view.openTabs = [tabB, tabB] ∧
    ¬ (runViewer [.clickFile (some "s1") fileB, .clickFile (some "s1") fileB,
                  .fetchSettled 0 (.content "b"), .fetchSettled 0 (.content "b")]
        Workspace.initial).view.paths.Nodup := by
  decide

/-- C3, at the failing run: from the initial state, `B` is opened; then file `B` is
clicked again and, while that fetch is pending, tab `B` is closed; then the fetch
resolves.  The call still sees tab `B` of its click, maps over the now empty tabs and
sets the active tab: no tab is open and the active tab is `B`. -/
theorem close_during_fetch_keeps_active :
    (runViewer [.clickFile (some "s1") fileB, .fetchSettled 0 (.content "b"),
                .clickFile (some "s1") fileB, .closeTab "B",
                .fetchSettled 0 (.content "b2")] Workspace.initial).view.openTabs = [] ∧
    (runViewer [.clickFile (some "s1") fileB, .fetchSettled 0 (.content "b"),
                .clickFile (some "s1") fileB, .closeTab "B",
                .fetchSettled 0 (.content "b2")] Workspace.initial).view.activeTab =
      some "B" := by
  decide

end Toshokan
